import Mathlib

/-!
Shallow embedding of the mongodb-crud-mcp-server repository.

The repository has two layers:
* `server.js` — an Express + Mongoose REST surface over two collections
  (roles and users), with an idempotent seed route;
* `mcp-server.js` — an MCP tool-call adapter (the Mediation Gateway) that
  calls the REST surface over HTTP and renders results as text envelopes.

The embedding models the persistent store as an explicit `DB` value threaded
through every operation.  Mongoose schema behaviour that the routes rely on is
embedded where the routes use it: string setters (`trim`, `lowercase`),
required/minlength/enum validation, unique indexes (translated or raw E11000
errors), the `pre(save)` password-hashing hook (which runs after validation
and only on `save()`, never on `findOneAndUpdate` / `findByIdAndUpdate`),
`populate` (a role join that yields nothing for a dangling reference) and
`select(-password)` (the password projection is dropped).

The external Secret Hasher (bcrypt) is out of scope per the spec; operations
that hash take the hash function as a parameter.  `bcryptLike` below is a
concrete stand-in used only to evaluate closed instances; the one property of
bcrypt the development relies on is that digests are fixed-length strings of
60 characters (in particular, never shorter than 6).

Store-assigned ObjectIds are modelled as the 24-hex-digit strings `genId n`
handed out from the `nextId` counter of the `DB` state.  Mongo timestamps
(`createdAt`/`updatedAt`) carry no claim and are not modelled; the MCP detail
renderings are embedded without their trailing timestamp line.
-/

deriving instance DecidableEq for Except

namespace MongoCrud

/-- A stored role document (`roleSchema` in server.js). -/
structure RoleDoc where
  rid : String
  name : String
  descr : String
  permissions : List String
  isActive : Bool
  deriving Repr, DecidableEq

/-- A stored user document (`userSchema` in server.js).  `password` is the
field as persisted (the routes decide whether it holds a digest or not).
`role` is the unvalidated ObjectId reference to a role. -/
structure UserDoc where
  uid : String
  firstName : String
  lastName : String
  email : String
  password : String
  phone : Option String
  dateOfBirth : Option String
  role : String
  isActive : Bool
  deriving Repr, DecidableEq

/-- The persistent store: the two collections plus the counter from which
fresh ObjectIds are assigned. -/
structure DB where
  roles : List RoleDoc
  users : List UserDoc
  nextId : Nat
  deriving Repr, DecidableEq

/-- An error response of the REST surface: HTTP status plus the `error`
string of the JSON body. -/
structure ErrResponse where
  status : Nat
  error : String
  deriving Repr, DecidableEq

/-- The projection of a role produced by `populate(role, name description)`. -/
structure RoleRef where
  rid : String
  name : String
  descr : String
  deriving Repr, DecidableEq

/-- A user as rendered by the user routes: the role reference expanded by
`populate` (`none` when the referenced role does not exist) and the password
an `Option` that `select(-password)` clears. -/
structure UserView where
  uid : String
  firstName : String
  lastName : String
  email : String
  password : Option String
  phone : Option String
  dateOfBirth : Option String
  role : Option RoleRef
  isActive : Bool
  deriving Repr, DecidableEq

/-- A request body for the role routes (absent fields are `none`;
`permissions` absent defaults to the empty array path default). -/
structure RoleInput where
  name : Option String
  descr : Option String
  permissions : Option (List String)
  isActive : Option Bool
  deriving Repr, DecidableEq

/-- A request body for the user routes (absent fields are `none`). -/
structure UserInput where
  firstName : Option String
  lastName : Option String
  email : Option String
  password : Option String
  phone : Option String
  dateOfBirth : Option String
  role : Option String
  isActive : Option Bool
  deriving Repr, DecidableEq

/-- Fresh ObjectId: `n` in hexadecimal, zero-padded to mongo's 24 digits. -/
def genId (n : Nat) : String :=
  let ds := Nat.toDigits 16 n
  String.mk (List.replicate (24 - ds.length) '0' ++ ds)

/-- The closed permission enumeration of both schemas. -/
def permEnum : List String := ["read", "write", "delete", "admin"]

/-- Replace the first element satisfying `p` by its image under `f`
(the list-level effect of a mongo update of one matched document). -/
def updateFirst (p : α → Bool) (f : α → α) : List α → List α
  | [] => []
  | x :: xs => if p x then f x :: xs else x :: updateFirst p f xs

/-- The raw store error for a duplicate on the users email index (what mongo
reports when no route translates it). -/
def e11000UserMsg : String :=
  "E11000 duplicate key error collection: test.users index: email_1 dup key"

/-- The raw store error for a duplicate on the roles name index. -/
def e11000RoleMsg : String :=
  "E11000 duplicate key error collection: test.roles index: name_1 dup key"

/-- Mongoose validation failure message for a role, as far as modelled (the
routes only forward `error.message`; no claim depends on its exact text). -/
def roleValidationMsg : String := "Role validation failed"

/-- Mongoose validation failure message for a user, as far as modelled. -/
def userValidationMsg : String := "User validation failed"

/-- A concrete stand-in for the out-of-scope bcrypt collaborator, with the
shape property the development uses: every digest is 60 characters. -/
def bcryptLike (_ : String) : String :=
  "$2a$10$" ++ String.mk (List.replicate 53 'x')

/-! ## Mongoose-level normalization and validation -/

/-- Character-level lowercasing (the effect of `toLowerCase` /
mongoose `lowercase: true`), stated over the character list so that concrete
instances evaluate. -/
def lowerStr (s : String) : String := String.mk (s.data.map Char.toLower)

/-- Whitespace trimming at both ends (the effect of mongoose `trim: true`),
stated over the character list so that concrete instances evaluate. -/
def trimStr (s : String) : String :=
  String.mk (((s.data.dropWhile Char.isWhitespace).reverse.dropWhile
    Char.isWhitespace).reverse)

/-- Setters of the email path: `lowercase: true, trim: true`. -/
def normEmail (s : String) : String := lowerStr (trimStr s)

/-- Validation run by `save()` on a new role (required paths, the permissions
enumeration).  Mongoose runs a required check per path: an absent path or an
empty string fails; the name path also trims first. -/
def roleCreateValid (inp : RoleInput) : Bool :=
  (match inp.name with
   | some n => trimStr n != ""
   | none => false) &&
  (match inp.descr with
   | some d => d != ""
   | none => false) &&
  ((inp.permissions.getD []).all (fun p => permEnum.contains p))

/-- The normalized role document assembled from a create body: setters applied
and schema defaults (`permissions` array default, `isActive` default true). -/
def buildRole (rid : String) (inp : RoleInput) : RoleDoc :=
  { rid := rid
    name := trimStr (inp.name.getD "")
    descr := inp.descr.getD ""
    permissions := inp.permissions.getD []
    isActive := inp.isActive.getD true }

/-- Validation run by `save()` on a new user.  The password minlength check
runs on the value as assigned — validation is the built-in pre-save step and
runs before the user-defined hashing hook, so on create it sees the
plaintext.  ObjectId casting of the role path is not modelled beyond
presence (ids are opaque strings in the model). -/
def userCreateValid (inp : UserInput) : Bool :=
  (match inp.firstName with
   | some s => trimStr s != ""
   | none => false) &&
  (match inp.lastName with
   | some s => trimStr s != ""
   | none => false) &&
  (match inp.email with
   | some s => normEmail s != ""
   | none => false) &&
  (match inp.password with
   | some s => s != "" && 6 <= s.length
   | none => false) &&
  (match inp.role with
   | some s => s != ""
   | none => false)

/-- The normalized user document assembled from a create body, with the
password already hashed by the pre-save hook. -/
def buildUser (hash : String → String) (uid : String) (inp : UserInput) : UserDoc :=
  { uid := uid
    firstName := trimStr (inp.firstName.getD "")
    lastName := trimStr (inp.lastName.getD "")
    email := normEmail (inp.email.getD "")
    password := hash (inp.password.getD "")
    phone := inp.phone.map trimStr
    dateOfBirth := inp.dateOfBirth
    role := inp.role.getD ""
    isActive := inp.isActive.getD true }

/-! ## Population and projection -/

/-- The join performed by `populate(role, name description)`: the referenced
role when it exists, nothing for a dangling reference. -/
def populateRole (db : DB) (roleId : String) : Option RoleRef :=
  (db.roles.find? (fun r => r.rid == roleId)).map
    (fun r => { rid := r.rid, name := r.name, descr := r.descr })

/-- A user document rendered with its role populated; the password still
present (projection is a separate step). -/
def toUserView (db : DB) (u : UserDoc) : UserView :=
  { uid := u.uid
    firstName := u.firstName
    lastName := u.lastName
    email := u.email
    password := some u.password
    phone := u.phone
    dateOfBirth := u.dateOfBirth
    role := populateRole db u.role
    isActive := u.isActive }

/-- The `select(-password)` projection. -/
def selectNoPassword (v : UserView) : UserView := { v with password := none }

/-- `findById` plus `populate` plus `select(-password)`, the read every user
route performs. -/
def findUserViewById (db : DB) (uid : String) : Option UserView :=
  (db.users.find? (fun u => u.uid == uid)).map
    (fun u => selectNoPassword (toUserView db u))

/-! ## Role routes (server.js) -/

/-- A store insert on the roles collection (the document appended, the next
fresh id consumed). -/
def insertRole (db : DB) (doc : RoleDoc) : DB :=
  { db with roles := db.roles ++ [doc], nextId := db.nextId + 1 }

/-- A store insert on the users collection. -/
def insertUser (db : DB) (doc : UserDoc) : DB :=
  { db with users := db.users ++ [doc], nextId := db.nextId + 1 }

/-- `GET /api/roles`: every stored role. -/
def getRoles (db : DB) : List RoleDoc := db.roles

/-- `GET /api/roles/:id`. -/
def getRoleById (db : DB) (rid : String) : Except ErrResponse RoleDoc :=
  match db.roles.find? (fun r => r.rid == rid) with
  | some r => .ok r
  | none => .error ⟨404, "Role not found"⟩

/-- `POST /api/roles`: validate, insert, translate the E11000 uniqueness
violation on the name index into the fixed duplicate message. -/
def postRole (db : DB) (inp : RoleInput) : DB × Except ErrResponse RoleDoc :=
  if roleCreateValid inp then
    let nr := buildRole (genId db.nextId) inp
    if db.roles.any (fun r => r.name == nr.name) then
      (db, .error ⟨400, "Role name already exists"⟩)
    else
      (insertRole db nr, .ok nr)
  else
    (db, .error ⟨400, roleValidationMsg⟩)

/-- The `$set` of a role update body onto a stored role (setters applied). -/
def applyRoleUpdate (inp : RoleInput) (r : RoleDoc) : RoleDoc :=
  { r with
    name := match inp.name with
            | some n => trimStr n
            | none => r.name
    descr := inp.descr.getD r.descr
    permissions := inp.permissions.getD r.permissions
    isActive := inp.isActive.getD r.isActive }

/-- Update validators for the role paths present in the body
(`runValidators: true`). -/
def roleUpdateValid (inp : RoleInput) : Bool :=
  (match inp.name with
   | some n => trimStr n != ""
   | none => true) &&
  (match inp.descr with
   | some d => d != ""
   | none => true) &&
  ((inp.permissions.getD []).all (fun p => permEnum.contains p))

/-- `PUT /api/roles/:id` (`findByIdAndUpdate`, no upsert): 404 when the id
matches nothing; this route has no E11000 translation, so a name collision
surfaces as the raw store message. -/
def putRole (db : DB) (rid : String) (inp : RoleInput) :
    DB × Except ErrResponse RoleDoc :=
  if roleUpdateValid inp then
    match db.roles.find? (fun r => r.rid == rid) with
    | none => (db, .error ⟨404, "Role not found"⟩)
    | some r =>
      let r2 := applyRoleUpdate inp r
      if db.roles.any (fun x => x.rid != r.rid && x.name == r2.name) then
        (db, .error ⟨400, e11000RoleMsg⟩)
      else
        ({ db with roles := updateFirst (fun x => x.rid == rid) (applyRoleUpdate inp) db.roles },
         .ok r2)
  else
    (db, .error ⟨400, roleValidationMsg⟩)

/-- `DELETE /api/roles/:id` (`findByIdAndDelete`): unconditional hard delete,
no check for accounts still referencing the role. -/
def deleteRole (db : DB) (rid : String) : DB × Except ErrResponse String :=
  match db.roles.find? (fun r => r.rid == rid) with
  | none => (db, .error ⟨404, "Role not found"⟩)
  | some _ =>
    ({ db with roles := db.roles.eraseP (fun r => r.rid == rid) },
     .ok "Role deleted successfully")

/-! ## User routes (server.js) -/

/-- `GET /api/users`: every user, role populated, password projected away. -/
def getUsersList (db : DB) : List UserView :=
  db.users.map (fun u => selectNoPassword (toUserView db u))

/-- `GET /api/users/:id`. -/
def getUserById (db : DB) (uid : String) : Except ErrResponse UserView :=
  match findUserViewById db uid with
  | some v => .ok v
  | none => .error ⟨404, "User not found"⟩

/-- `POST /api/users`: validate on the plaintext, hash via the pre-save hook,
insert (translating the email-index E11000 into the fixed message), then
re-fetch the created user populated and without the password.  The payload is
an `Option` because the route serializes whatever the re-fetch returns. -/
def postUser (hash : String → String) (db : DB) (inp : UserInput) :
    DB × Except ErrResponse (Option UserView) :=
  if userCreateValid inp then
    let doc := buildUser hash (genId db.nextId) inp
    if db.users.any (fun u => u.email == doc.email) then
      (db, .error ⟨400, "Email already exists"⟩)
    else
      (insertUser db doc, .ok (findUserViewById (insertUser db doc) doc.uid))
  else
    (db, .error ⟨400, userValidationMsg⟩)

/-- The body of a user update request after the route's own preprocessing:
`if (req.body.password) req.body.password = await bcrypt.hash(...)` — a
present non-empty password is replaced by its digest before anything else. -/
def hashUpdateBody (hash : String → String) (inp : UserInput) : UserInput :=
  { inp with
    password := match inp.password with
                | some p => if p != "" then some (hash p) else some p
                | none => none }

/-- Update validators for the user paths present in the body.  Crucially the
password minlength validator sees the value the route is setting — which the
route has already hashed. -/
def userUpdateValid (inp : UserInput) : Bool :=
  (match inp.firstName with
   | some s => trimStr s != ""
   | none => true) &&
  (match inp.lastName with
   | some s => trimStr s != ""
   | none => true) &&
  (match inp.email with
   | some s => normEmail s != ""
   | none => true) &&
  (match inp.password with
   | some s => s != "" && 6 <= s.length
   | none => true) &&
  (match inp.role with
   | some s => s != ""
   | none => true)

/-- The `$set` of a (preprocessed) user update body onto a stored user. -/
def applyUserUpdate (inp : UserInput) (u : UserDoc) : UserDoc :=
  { u with
    firstName := match inp.firstName with
                 | some s => trimStr s
                 | none => u.firstName
    lastName := match inp.lastName with
                | some s => trimStr s
                | none => u.lastName
    email := match inp.email with
             | some s => normEmail s
             | none => u.email
    password := inp.password.getD u.password
    phone := match inp.phone with
             | some s => some (trimStr s)
             | none => u.phone
    dateOfBirth := match inp.dateOfBirth with
                   | some s => some s
                   | none => u.dateOfBirth
    role := inp.role.getD u.role
    isActive := inp.isActive.getD u.isActive }

/-- `PUT /api/users/:id`: hash a present password, then `findByIdAndUpdate`
with `runValidators` (no upsert), then populate and project the result.  404
when the id matches nothing; an email collision with another document
surfaces as the raw store message (this route has no E11000 translation). -/
def putUser (hash : String → String) (db : DB) (uid : String) (inp : UserInput) :
    DB × Except ErrResponse UserView :=
  let body := hashUpdateBody hash inp
  if userUpdateValid body then
    match db.users.find? (fun u => u.uid == uid) with
    | none => (db, .error ⟨404, "User not found"⟩)
    | some u =>
      let u2 := applyUserUpdate body u
      if db.users.any (fun x => x.uid != u.uid && x.email == u2.email) then
        (db, .error ⟨400, e11000UserMsg⟩)
      else
        let db2 : DB :=
          { db with users := updateFirst (fun x => x.uid == uid) (applyUserUpdate body) db.users }
        (db2, .ok (selectNoPassword (toUserView db2 u2)))
  else
    (db, .error ⟨400, userValidationMsg⟩)

/-- `DELETE /api/users/:id`. -/
def deleteUser (db : DB) (uid : String) : DB × Except ErrResponse String :=
  match db.users.find? (fun u => u.uid == uid) with
  | none => (db, .error ⟨404, "User not found"⟩)
  | some _ =>
    ({ db with users := db.users.eraseP (fun u => u.uid == uid) },
     .ok "User deleted successfully")

/-! ## Seed route (server.js, `POST /api/seed`)

The route performs three `findOneAndUpdate(filter, update, {upsert: true,
new: true})` calls.  `findOneAndUpdate` updates the first document matching
the filter (or inserts one built from the update document) and, unlike
`save()`, triggers neither validation of the whole document nor the
user-defined `pre(save)` hooks — in particular the password-hashing hook does
not run, and the returned document carries every field, password included. -/

/-- `findOneAndUpdate` with upsert on the roles collection. -/
def roleUpsert (db : DB) (p : RoleDoc → Bool) (f : RoleDoc → RoleDoc)
    (mk : String → RoleDoc) : DB × RoleDoc :=
  match db.roles.find? p with
  | some r => ({ db with roles := updateFirst p f db.roles }, f r)
  | none =>
    let nr := mk (genId db.nextId)
    (insertRole db nr, nr)

/-- `findOneAndUpdate` with upsert on the users collection. -/
def userUpsert (db : DB) (p : UserDoc → Bool) (f : UserDoc → UserDoc)
    (mk : String → UserDoc) : DB × UserDoc :=
  match db.users.find? p with
  | some u => ({ db with users := updateFirst p f db.users }, f u)
  | none =>
    let nu := mk (genId db.nextId)
    (insertUser db nu, nu)

/-- The `$set` of the admin-role upsert. -/
def seedAdminRoleSet (r : RoleDoc) : RoleDoc :=
  { r with
    name := "admin"
    descr := "Administrator with full access"
    permissions := ["read", "write", "delete", "admin"]
    isActive := true }

/-- The document the admin-role upsert inserts when the filter matches
nothing. -/
def mkSeedAdminRole (rid : String) : RoleDoc :=
  { rid := rid
    name := "admin"
    descr := "Administrator with full access"
    permissions := ["read", "write", "delete", "admin"]
    isActive := true }

/-- The `$set` of the user-role upsert. -/
def seedUserRoleSet (r : RoleDoc) : RoleDoc :=
  { r with
    name := "user"
    descr := "Regular user with limited access"
    permissions := ["read"]
    isActive := true }

/-- The document the user-role upsert inserts when the filter matches
nothing. -/
def mkSeedUserRole (rid : String) : RoleDoc :=
  { rid := rid
    name := "user"
    descr := "Regular user with limited access"
    permissions := ["read"]
    isActive := true }

/-- The `$set` of the admin-account upsert.  The update document carries no
`dateOfBirth`, so that path is left as stored; the password is set to the
plaintext, since no hashing hook runs on `findOneAndUpdate`. -/
def seedAdminUserSet (roleId : String) (u : UserDoc) : UserDoc :=
  { u with
    firstName := "Admin"
    lastName := "User"
    email := "admin@example.com"
    password := "admin123"
    phone := some "+1234567890"
    role := roleId
    isActive := true }

/-- The document the admin-account upsert inserts when the filter matches
nothing. -/
def mkSeedAdminUser (roleId : String) (uid : String) : UserDoc :=
  { uid := uid
    firstName := "Admin"
    lastName := "User"
    email := "admin@example.com"
    password := "admin123"
    phone := some "+1234567890"
    dateOfBirth := none
    role := roleId
    isActive := true }

/-- The JSON body of a successful seed response: the message and the full
documents (not views — no projection is applied) of the two roles and the
admin account. -/
structure SeedResponse where
  message : String
  roles : List RoleDoc
  users : List UserDoc
  deriving Repr, DecidableEq

/-- The first await of the seed route: upsert the admin role by name. -/
def seedStepA (db : DB) : DB × RoleDoc :=
  roleUpsert db (fun r => r.name == "admin") seedAdminRoleSet mkSeedAdminRole

/-- The second await: upsert the user role by name, on the store the first
step produced. -/
def seedStepB (db : DB) : DB × RoleDoc :=
  roleUpsert (seedStepA db).1 (fun r => r.name == "user") seedUserRoleSet
    mkSeedUserRole

/-- The third await: upsert the admin account by email, referencing the just
upserted admin role's id. -/
def seedStepC (db : DB) : DB × UserDoc :=
  userUpsert (seedStepB db).1 (fun u => u.email == "admin@example.com")
    (seedAdminUserSet (seedStepA db).2.rid)
    (mkSeedAdminUser (seedStepA db).2.rid)

/-- `POST /api/seed`: the three upserts in order, then the response carrying
the three resulting full documents. -/
def postSeed (db : DB) : DB × SeedResponse :=
  ((seedStepC db).1,
   ⟨"Seed data created successfully", [(seedStepA db).2, (seedStepB db).2],
    [(seedStepC db).2]⟩)

/-! ## MCP gateway (mcp-server.js)

Each tool handler wraps its whole body in try/catch and returns
`{content: [{type: text, text}]}` in both branches; the embedding renders
the envelope as its text.  A JavaScript property access on `null` (the
populated role of a dangling reference) throws a `TypeError` that the same
catch turns into the error envelope; such accesses are embedded as matches
on the `Option` with the `TypeError` message on the `none` side. -/

/-- The MCP response envelope (its single text block). -/
structure Envelope where
  text : String
  deriving Repr, DecidableEq

/-- The node `TypeError` message for reading a property of `null`. -/
def nullReadMsg (field : String) : String :=
  "Cannot read properties of null (reading \x27" ++ field ++ "\x27)"

/-- A hexadecimal digit as accepted by the ObjectId shape regex
`[0-9a-fA-F]`. -/
def isHexDigitChar (c : Char) : Bool :=
  c.isDigit || ('a' ≤ c && c ≤ 'f') || ('A' ≤ c && c ≤ 'F')

/-- The ObjectId shape test `/^[0-9a-fA-F]{24}$/.test(s)`. -/
def isHex24 (s : String) : Bool :=
  s.length == 24 && s.toList.all isHexDigitChar

/-- The message `resolveRoleId` fails with: the inner throw names the
original input, the surrounding catch wraps it once more. -/
def resolveFailMsg (input : String) : String :=
  "Failed to resolve role: Role \x27" ++ input ++ "\x27 not found"

/-- `resolveRoleId` of mcp-server.js.  The first component records whether
the role collection was fetched (the `GET /api/roles` call is reached exactly
when the shape test fails); the second is the resolved id or the wrapped
error. -/
def resolveRoleId (db : DB) (input : String) : Bool × Except String String :=
  if isHex24 input then
    (false, .ok input)
  else
    match db.roles.find? (fun r => lowerStr r.name == lowerStr input) with
    | some r => (true, .ok r.rid)
    | none => (true, .error (resolveFailMsg input))

/-- The arguments of the `create_user` tool (its schema requires `role`;
the other fields are forwarded as given). -/
structure CreateUserArgs where
  firstName : Option String
  lastName : Option String
  email : Option String
  password : Option String
  phone : Option String
  dateOfBirth : Option String
  role : String
  deriving Repr, DecidableEq

/-- `create_user`: resolve the role reference first, then POST the user and
render the created entity (reading `role.name` of the populated result). -/
def mcpCreateUser (hash : String → String) (db : DB) (a : CreateUserArgs) :
    DB × Envelope :=
  match resolveRoleId db a.role with
  | (_, .error msg) => (db, ⟨"❌ Failed to create user: " ++ msg⟩)
  | (_, .ok roleId) =>
    let inp : UserInput :=
      { firstName := a.firstName, lastName := a.lastName, email := a.email
        password := a.password, phone := a.phone, dateOfBirth := a.dateOfBirth
        role := some roleId, isActive := none }
    match postUser hash db inp with
    | (db2, .error e) => (db2, ⟨"❌ Failed to create user: " ++ e.error⟩)
    | (db2, .ok none) => (db2, ⟨"❌ Failed to create user: " ++ nullReadMsg "firstName"⟩)
    | (db2, .ok (some v)) =>
      match v.role with
      | none => (db2, ⟨"❌ Failed to create user: " ++ nullReadMsg "name"⟩)
      | some rr =>
        (db2, ⟨"✅ User created successfully!\n\nDetails:\n- Name: " ++
          (v.firstName ++ " " ++ v.lastName ++ "\n- Email: " ++ v.email ++
           "\n- Role: " ++ rr.name ++ "\n- ID: " ++ v.uid)⟩)

/-- One line of the `get_users` list rendering; reading `role.name` of a
dangling reference throws. -/
def renderUserLine (iv : Nat × UserView) : Except String String :=
  match iv.2.role with
  | none => .error (nullReadMsg "name")
  | some rr =>
    .ok (toString (iv.1 + 1) ++ ". " ++ iv.2.firstName ++ " " ++ iv.2.lastName ++
      " (" ++ iv.2.email ++ ") - Role: " ++ rr.name ++ " - Status: " ++
      (if iv.2.isActive then "Active" else "Inactive"))

/-- The sequential rendering performed by `users.map(...)`: each line in
order, the first thrown `TypeError` aborting the whole rendering. -/
def renderLines : List (Nat × UserView) → Except String (List String)
  | [] => .ok []
  | x :: xs =>
    match renderUserLine x with
    | .error e => .error e
    | .ok line =>
      match renderLines xs with
      | .error e => .error e
      | .ok rest => .ok (line :: rest)

/-- The `get_users` detail rendering (without the unmodelled timestamp
line). -/
def renderUserDetail (v : UserView) (rr : RoleRef) : String :=
  v.uid ++ "\n- Name: " ++ v.firstName ++ " " ++ v.lastName ++
  "\n- Email: " ++ v.email ++
  "\n- Phone: " ++ (match v.phone with
                    | some p => if p != "" then p else "Not provided"
                    | none => "Not provided") ++
  "\n- Date of Birth: " ++ (match v.dateOfBirth with
                            | some d => d
                            | none => "Not provided") ++
  "\n- Role: " ++ rr.name ++ " (" ++ rr.descr ++ ")" ++
  "\n- Status: " ++ (if v.isActive then "Active" else "Inactive")

/-- `get_users`: with a (truthy) id, the single-user detail; otherwise the
full list, with an explicit empty rendering.  Any error — HTTP or a thrown
`TypeError` in the rendering — becomes the error envelope. -/
def mcpGetUsers (db : DB) (id : Option String) : DB × Envelope :=
  let detail := fun (i : String) =>
    match getUserById db i with
    | .error e => (db, Envelope.mk ("❌ Failed to retrieve users: " ++ e.error))
    | .ok v =>
      match v.role with
      | none => (db, Envelope.mk ("❌ Failed to retrieve users: " ++ nullReadMsg "name"))
      | some rr => (db, Envelope.mk ("👤 User Details:\n\n- ID: " ++ renderUserDetail v rr))
  let list :=
    let vs := getUsersList db
    if vs.length == 0 then
      (db, Envelope.mk "📝 No users found in the system.")
    else
      match renderLines vs.enum with
      | .error msg => (db, Envelope.mk ("❌ Failed to retrieve users: " ++ msg))
      | .ok lines =>
        (db, Envelope.mk ("👥 Found " ++
          (toString vs.length ++ " user(s):\n\n" ++ String.intercalate "\n" lines)))
  match id with
  | some i => if i == "" then list else detail i
  | none => list

/-- `update_user`: resolve a (truthy) role argument, then PUT and render. -/
def mcpUpdateUser (hash : String → String) (db : DB) (id : String)
    (fields : UserInput) : DB × Envelope :=
  let resolved : Except String UserInput :=
    match fields.role with
    | some rstr =>
      if rstr != "" then
        match (resolveRoleId db rstr).2 with
        | .error msg => .error msg
        | .ok rid => .ok { fields with role := some rid }
      else .ok fields
    | none => .ok fields
  match resolved with
  | .error msg => (db, ⟨"❌ Failed to update user: " ++ msg⟩)
  | .ok fields2 =>
    match putUser hash db id fields2 with
    | (db2, .error e) => (db2, ⟨"❌ Failed to update user: " ++ e.error⟩)
    | (db2, .ok v) =>
      match v.role with
      | none => (db2, ⟨"❌ Failed to update user: " ++ nullReadMsg "name"⟩)
      | some rr =>
        (db2, ⟨"✅ User updated successfully!\n\nUpdated Details:\n- Name: " ++
          (v.firstName ++ " " ++ v.lastName ++ "\n- Email: " ++ v.email ++
           "\n- Role: " ++ rr.name)⟩)

/-- `delete_user`. -/
def mcpDeleteUser (db : DB) (id : String) : DB × Envelope :=
  match deleteUser db id with
  | (db2, .ok _) => (db2, ⟨"✅ User deleted successfully!"⟩)
  | (db2, .error e) => (db2, ⟨"❌ Failed to delete user: " ++ e.error⟩)

/-- `create_role`. -/
def mcpCreateRole (db : DB) (args : RoleInput) : DB × Envelope :=
  match postRole db args with
  | (db2, .error e) => (db2, ⟨"❌ Failed to create role: " ++ e.error⟩)
  | (db2, .ok r) =>
    (db2, ⟨"✅ Role created successfully!\n\nDetails:\n- Name: " ++
      (r.name ++ "\n- Description: " ++ r.descr ++
       "\n- Permissions: " ++ String.intercalate ", " r.permissions ++
       "\n- ID: " ++ r.rid)⟩)

/-- One line of the `get_roles` list rendering. -/
def renderRoleLine (ir : Nat × RoleDoc) : String :=
  toString (ir.1 + 1) ++ ". " ++ ir.2.name ++ " - " ++ ir.2.descr ++
  " - Permissions: [" ++ String.intercalate ", " ir.2.permissions ++
  "] - Status: " ++ (if ir.2.isActive then "Active" else "Inactive")

/-- `get_roles`: detail with a (truthy) id, otherwise the full list (the
role renderings read no populated field, so they cannot throw). -/
def mcpGetRoles (db : DB) (id : Option String) : DB × Envelope :=
  let detail := fun (i : String) =>
    match getRoleById db i with
    | .error e => (db, Envelope.mk ("❌ Failed to retrieve roles: " ++ e.error))
    | .ok r =>
      (db, Envelope.mk ("🔐 Role Details:\n\n- ID: " ++
        (r.rid ++ "\n- Name: " ++ r.name ++ "\n- Description: " ++ r.descr ++
         "\n- Permissions: " ++ String.intercalate ", " r.permissions ++
         "\n- Status: " ++ (if r.isActive then "Active" else "Inactive"))))
  let list :=
    let rs := getRoles db
    if rs.length == 0 then
      (db, Envelope.mk "📝 No roles found in the system.")
    else
      (db, Envelope.mk ("🔐 Found " ++
        (toString rs.length ++ " role(s):\n\n" ++
         String.intercalate "\n" (rs.enum.map renderRoleLine))))
  match id with
  | some i => if i == "" then list else detail i
  | none => list

/-- `update_role`. -/
def mcpUpdateRole (db : DB) (id : String) (fields : RoleInput) : DB × Envelope :=
  match putRole db id fields with
  | (db2, .error e) => (db2, ⟨"❌ Failed to update role: " ++ e.error⟩)
  | (db2, .ok r) =>
    (db2, ⟨"✅ Role updated successfully!\n\nUpdated Details:\n- Name: " ++
      (r.name ++ "\n- Description: " ++ r.descr ++
       "\n- Permissions: " ++ String.intercalate ", " r.permissions)⟩)

/-- `delete_role`. -/
def mcpDeleteRole (db : DB) (id : String) : DB × Envelope :=
  match deleteRole db id with
  | (db2, .ok _) => (db2, ⟨"✅ Role deleted successfully!"⟩)
  | (db2, .error e) => (db2, ⟨"❌ Failed to delete role: " ++ e.error⟩)

/-- `seed_database`. -/
def mcpSeedDatabase (db : DB) : DB × Envelope :=
  let r := postSeed db
  (r.1, ⟨"✅ Database seeded successfully!\n\n" ++
    (r.2.message ++ "\n\nCreated:\n- " ++ toString r.2.roles.length ++
     " roles\n- " ++ toString r.2.users.length ++
     " users\n\nDefault admin login:\n- Email: admin@example.com\n- Password: admin123")⟩)

/-- The nine named operations of the gateway's tool-call dispatcher. -/
inductive ToolCall where
  | createUser (args : CreateUserArgs)
  | getUsers (id : Option String)
  | updateUser (id : String) (fields : UserInput)
  | deleteUser (id : String)
  | createRole (args : RoleInput)
  | getRoles (id : Option String)
  | updateRole (id : String) (fields : RoleInput)
  | deleteRole (id : String)
  | seedDatabase
  deriving Repr, DecidableEq

/-- The `CallToolRequestSchema` dispatcher over the nine operations. -/
def callTool (hash : String → String) (db : DB) : ToolCall → DB × Envelope
  | .createUser a => mcpCreateUser hash db a
  | .getUsers id => mcpGetUsers db id
  | .updateUser id fields => mcpUpdateUser hash db id fields
  | .deleteUser id => mcpDeleteUser db id
  | .createRole a => mcpCreateRole db a
  | .getRoles id => mcpGetRoles db id
  | .updateRole id fields => mcpUpdateRole db id fields
  | .deleteRole id => mcpDeleteRole db id
  | .seedDatabase => mcpSeedDatabase db

/-! ## Concrete stores used to instantiate the theorems -/

/-- The empty store. -/
def dbEmpty : DB := ⟨[], [], 0⟩

/-- A store holding one admin role. -/
def dbOneRole : DB :=
  ⟨[⟨"000000000000000000000000", "admin", "Administrator with full access",
     ["read", "write", "delete", "admin"], true⟩], [], 1⟩

/-- A store with a role and one account whose role reference dangles. -/
def dbDangling : DB :=
  ⟨[⟨"aaaaaaaaaaaaaaaaaaaaaaaa", "temp", "d", [], true⟩],
   [⟨"u1", "A", "B", "a@b.c", "x", none, none, "rgone", true⟩], 3⟩

/-- A store whose stored admin account carries a date of birth: the seed
upsert leaves that non-key field untouched. -/
def dbDob : DB :=
  ⟨[], [⟨"u1", "X", "Y", "admin@example.com", "p", none, some "1990-01-01",
    "r", true⟩], 0⟩

/-- The human-readable envelope renderings of the gateway: the opening text
of every success, detail, list, empty-list and per-operation error
rendering of the nine tool handlers. -/
def renderShapes : List String :=
  ["✅ User created successfully!\n\nDetails:\n- Name: ",
   "❌ Failed to create user: ",
   "👤 User Details:\n\n- ID: ",
   "👥 Found ",
   "📝 No users found in the system.",
   "❌ Failed to retrieve users: ",
   "✅ User updated successfully!\n\nUpdated Details:\n- Name: ",
   "❌ Failed to update user: ",
   "✅ User deleted successfully!",
   "❌ Failed to delete user: ",
   "✅ Role created successfully!\n\nDetails:\n- Name: ",
   "❌ Failed to create role: ",
   "🔐 Role Details:\n\n- ID: ",
   "🔐 Found ",
   "📝 No roles found in the system.",
   "❌ Failed to retrieve roles: ",
   "✅ Role updated successfully!\n\nUpdated Details:\n- Name: ",
   "❌ Failed to update role: ",
   "✅ Role deleted successfully!",
   "❌ Failed to delete role: ",
   "✅ Database seeded successfully!\n\n"]

/-- An envelope that is one of the gateway's own renderings: it opens with
one of the success or error shapes above (in particular it is a rendered
string, not a propagated exception). -/
def isRendered (e : Envelope) : Prop :=
  ∃ pre ∈ renderShapes, ∃ s, e.text = pre ++ s

/-! ## Claims -/

/-- C4: the Reference Resolver, for every input string: a 24-character
hexadecimal token is returned unchanged with no Store query; otherwise the
role collection is fetched and the id of the role whose name matches the
input case-insensitively is returned (unique by the case-insensitive name
uniqueness the spec asserts); no match fails with the ReferenceNotFound
message carrying the original input. -/
theorem resolver_contract (db : DB) (input : String) :
    (isHex24 input = true → resolveRoleId db input = (false, .ok input)) ∧
    (isHex24 input = false → (resolveRoleId db input).1 = true) ∧
    (isHex24 input = false →
      (db.roles.map (fun r => lowerStr r.name)).Nodup →
      ∀ r ∈ db.roles, lowerStr r.name = lowerStr input →
        resolveRoleId db input = (true, .ok r.rid)) ∧
    (isHex24 input = false →
      (∀ r ∈ db.roles, lowerStr r.name ≠ lowerStr input) →
      resolveRoleId db input = (true, .error (resolveFailMsg input))) := by
  refine ⟨?_, ?_, ?_, ?_⟩
  · intro h
    simp [resolveRoleId, h]
  · intro h
    simp only [resolveRoleId, h, Bool.false_eq_true, if_false]
    cases db.roles.find? (fun r => lowerStr r.name == lowerStr input) <;> rfl
  · intro h hnd r hr hname
    have hsome : (db.roles.find? (fun x => lowerStr x.name == lowerStr input)).isSome := by
      rw [List.find?_isSome]
      exact ⟨r, hr, by simp [hname]⟩
    rcases Option.isSome_iff_exists.1 hsome with ⟨r2, hr2⟩
    have hr2mem : r2 ∈ db.roles := List.mem_of_find?_eq_some hr2
    have hr2p : lowerStr r2.name = lowerStr input := by
      have := List.find?_some hr2
      simpa using this
    have : r2 = r :=
      List.inj_on_of_nodup_map hnd hr2mem hr (by rw [hr2p, hname])
    subst this
    simp [resolveRoleId, h, hr2]
  · intro h hnone
    have : db.roles.find? (fun x => lowerStr x.name == lowerStr input) = none := by
      rw [List.find?_eq_none]
      intro r hr
      simpa using hnone r hr
    simp [resolveRoleId, h, this]

/-- C4 witness: the three branches of the resolver contract evaluated on a
one-role store. -/
theorem resolver_contract_witness :
    resolveRoleId dbOneRole "507f1f77bcf86cd799439011" =
      (false, .ok "507f1f77bcf86cd799439011") ∧
    resolveRoleId dbOneRole "Admin" = (true, .ok "000000000000000000000000") ∧
    resolveRoleId dbOneRole "moderator" = (true, .error (resolveFailMsg "moderator")) :=
  ⟨(resolver_contract dbOneRole "507f1f77bcf86cd799439011").1 (by decide),
   (resolver_contract dbOneRole "Admin").2.2.1 (by decide) (by decide)
     ⟨"000000000000000000000000", "admin", "Administrator with full access",
      ["read", "write", "delete", "admin"], true⟩ (by decide) (by decide),
   (resolver_contract dbOneRole "moderator").2.2.2 (by decide) (by decide)⟩

/-- C8: an update (user or role) whose id matches no stored entity leaves the
store exactly as it was and fails; when the body passes the update
validators (which mongoose runs before the query), the failure is precisely
the 404 NotFound response. -/
theorem update_missing_id_not_found (hash : String → String) (db : DB)
    (uid rid : String) (uinp : UserInput) (rinp : RoleInput) :
    (db.users.find? (fun u => u.uid == uid) = none →
      (putUser hash db uid uinp).1 = db ∧
      (∃ e, (putUser hash db uid uinp).2 = .error e) ∧
      (userUpdateValid (hashUpdateBody hash uinp) = true →
        putUser hash db uid uinp = (db, .error ⟨404, "User not found"⟩))) ∧
    (db.roles.find? (fun r => r.rid == rid) = none →
      (putRole db rid rinp).1 = db ∧
      (∃ e, (putRole db rid rinp).2 = .error e) ∧
      (roleUpdateValid rinp = true →
        putRole db rid rinp = (db, .error ⟨404, "Role not found"⟩))) := by
  constructor
  · intro hnone
    by_cases hv : userUpdateValid (hashUpdateBody hash uinp) = true
    · refine ⟨?_, ⟨⟨404, "User not found"⟩, ?_⟩, fun _ => ?_⟩ <;>
        simp [putUser, hv, hnone]
    · refine ⟨?_, ⟨⟨400, userValidationMsg⟩, ?_⟩, fun h => absurd h hv⟩ <;>
        simp [putUser, hv]
  · intro hnone
    by_cases hv : roleUpdateValid rinp = true
    · refine ⟨?_, ⟨⟨404, "Role not found"⟩, ?_⟩, fun _ => ?_⟩ <;>
        simp [putRole, hv, hnone]
    · refine ⟨?_, ⟨⟨400, roleValidationMsg⟩, ?_⟩, fun h => absurd h hv⟩ <;>
        simp [putRole, hv]

/-- C8 witness: updating a missing user and a missing role on the one-role
store. -/
theorem update_missing_id_not_found_witness :
    putUser bcryptLike dbOneRole "507f1f77bcf86cd799439011"
      ⟨some "Jo", none, none, none, none, none, none, none⟩ =
      (dbOneRole, .error ⟨404, "User not found"⟩) ∧
    putRole dbOneRole "507f1f77bcf86cd799439011"
      ⟨some "mod", none, none, none⟩ =
      (dbOneRole, .error ⟨404, "Role not found"⟩) := by
  have h := update_missing_id_not_found bcryptLike dbOneRole
    "507f1f77bcf86cd799439011" "507f1f77bcf86cd799439011"
    ⟨some "Jo", none, none, none, none, none, none, none⟩
    ⟨some "mod", none, none, none⟩
  exact ⟨(h.1 (by decide)).2.2 (by decide), (h.2 (by decide)).2.2 (by decide)⟩

/-- C7: a `create_user` whose role argument is a name (not an
identifier-shaped 24-hex token) matching no stored role fails with the
rendered ReferenceNotFound envelope, and the account collection is exactly
as before the call. -/
theorem create_user_unknown_role_name (hash : String → String) (db : DB)
    (a : CreateUserArgs) (hhex : isHex24 a.role = false)
    (hname : ∀ r ∈ db.roles, lowerStr r.name ≠ lowerStr a.role) :
    mcpCreateUser hash db a =
      (db, ⟨"❌ Failed to create user: " ++ resolveFailMsg a.role⟩) ∧
    (mcpCreateUser hash db a).1.users = db.users := by
  have hfind : db.roles.find? (fun r => lowerStr r.name == lowerStr a.role) = none := by
    rw [List.find?_eq_none]
    intro r hr
    simpa using hname r hr
  have h1 : mcpCreateUser hash db a =
      (db, ⟨"❌ Failed to create user: " ++ resolveFailMsg a.role⟩) := by
    simp [mcpCreateUser, resolveRoleId, hhex, hfind]
  exact ⟨h1, by rw [h1]⟩

/-- C7 witness: creating a user with the unknown role name `moderator` on
the one-role store. -/
theorem create_user_unknown_role_name_witness :
    mcpCreateUser bcryptLike dbOneRole
      ⟨some "John", some "Doe", some "john@x.com", some "secret1", none, none, "moderator"⟩ =
      (dbOneRole, ⟨"❌ Failed to create user: " ++ resolveFailMsg "moderator"⟩) :=
  (create_user_unknown_role_name bcryptLike dbOneRole
    ⟨some "John", some "Doe", some "john@x.com", some "secret1", none, none, "moderator"⟩
    (by decide) (by decide)).1

/-- C1 (divergence at the failing input): seeding an empty store persists
the canonical account's secret as the verbatim plaintext `admin123` — the
`findOneAndUpdate` upsert bypasses the pre-save hashing hook — and the seed
response carries that plaintext password field back to the caller, so the
secret is neither stored only as a hash nor absent from every output. -/
theorem seed_persists_plaintext_secret :
    (postSeed dbEmpty).1.users.map (fun u => u.password) = ["admin123"] ∧
    (postSeed dbEmpty).2.users.map (fun u => u.password) = ["admin123"] := by
  decide

/-- C6 (divergence at the failing input): on update the route hashes the
password before `findByIdAndUpdate`, so the minlength-6 validator sees the
60-character digest and passes — the three-character secret `abc` is
accepted and persisted as its digest — while the same secret is rejected at
create, where validation precedes the hashing hook. -/
theorem update_short_secret_accepted :
    ((putUser bcryptLike (postSeed dbEmpty).1 "000000000000000000000002"
        ⟨none, none, none, some "abc", none, none, none, none⟩).2).isOk = true ∧
    (putUser bcryptLike (postSeed dbEmpty).1 "000000000000000000000002"
        ⟨none, none, none, some "abc", none, none, none, none⟩).1.users.map
      (fun u => u.password) = [bcryptLike "abc"] ∧
    (postUser bcryptLike dbOneRole
        ⟨some "John", some "Doe", some "john@x.com", some "abc", none, none,
         some "000000000000000000000000", none⟩).2 =
      .error ⟨400, userValidationMsg⟩ := by
  refine ⟨by decide, by decide, by decide⟩


/-- Rendering an enumerated user list in which some view has no populated
role throws the first such `TypeError`, whatever the position. -/
theorem renderLines_error :
    ∀ (vs : List UserView) (k : Nat), (∃ v ∈ vs, v.role = none) →
      renderLines (List.enumFrom k vs) = .error (nullReadMsg "name") := by
  intro vs
  induction vs with
  | nil => intro k h; rcases h with ⟨v, hv, _⟩; cases hv
  | cons v vs ih =>
    intro k h
    cases hv : v.role with
    | none =>
      simp [List.enumFrom, renderLines, renderUserLine, hv]
    | some rr =>
      rcases h with ⟨w, hw, hrole⟩
      have hwvs : w ∈ vs := by
        rcases List.mem_cons.1 hw with h1 | h1
        · subst h1; rw [hv] at hrole; cases hrole
        · exact h1
      have := ih (k + 1) ⟨w, hwvs, hrole⟩
      simp [List.enumFrom, renderLines, renderUserLine, hv, this]

/-- C10: in a state holding an account whose role reference matches no
stored role (reachable because `delete_role` succeeds unconditionally, with
no referencing-account check), the `get_users` full-list call returns the
failure envelope — the populated role is nothing and the list rendering
reads its `name` unguardedly — instead of a user list. -/
theorem dangling_role_fails_get_users (db : DB)
    (h : ∃ u ∈ db.users, db.roles.find? (fun r => r.rid == u.role) = none) :
    mcpGetUsers db none =
      (db, ⟨"❌ Failed to retrieve users: " ++ nullReadMsg "name"⟩) ∧
    ∀ rid, (db.roles.find? (fun r => r.rid == rid)).isSome →
      (mcpDeleteRole db rid).2 = ⟨"✅ Role deleted successfully!"⟩ := by
  constructor
  · rcases h with ⟨u, hu, hnone⟩
    have hdv : selectNoPassword (toUserView db u) ∈ getUsersList db :=
      List.mem_map_of_mem _ hu
    have hrole : (selectNoPassword (toUserView db u)).role = none := by
      simp [selectNoPassword, toUserView, populateRole, hnone]
    have hlen : ((getUsersList db).length == 0) = false := by
      have : getUsersList db ≠ [] := List.ne_nil_of_mem hdv
      simpa [List.length_eq_zero] using this
    have hmap : renderLines (List.enumFrom 0 (getUsersList db)) =
        .error (nullReadMsg "name") :=
      renderLines_error _ 0 ⟨_, hdv, hrole⟩
    simp [mcpGetUsers, hlen, List.enum, hmap]
  · intro rid hsome
    rcases Option.isSome_iff_exists.1 hsome with ⟨r, hr⟩
    simp [mcpDeleteRole, deleteRole, hr]

/-- C10 witness: the dangling store, and the unconditional role delete. -/
theorem dangling_role_fails_get_users_witness :
    mcpGetUsers dbDangling none =
      (dbDangling, ⟨"❌ Failed to retrieve users: " ++ nullReadMsg "name"⟩) ∧
    (mcpDeleteRole dbDangling "aaaaaaaaaaaaaaaaaaaaaaaa").2 =
      ⟨"✅ Role deleted successfully!"⟩ := by
  have h := dangling_role_fails_get_users dbDangling
    ⟨⟨"u1", "A", "B", "a@b.c", "x", none, none, "rgone", true⟩, by decide, by decide⟩
  exact ⟨h.1, h.2 "aaaaaaaaaaaaaaaaaaaaaaaa" (by decide)⟩

/-- C2: a valid create followed by `findById` on the created id returns an
entity whose secret is absent (the password projection is cleared) and whose
other fields are the input after normalization — names and phone trimmed,
the email trimmed and lowercased at write time — while the stored document
holds the supplied role reference and the hashed secret. -/
theorem create_then_find_matches (hash : String → String) (db : DB)
    (inp : UserInput)
    (hfresh : ∀ u ∈ db.users, u.uid ≠ genId db.nextId)
    (hval : userCreateValid inp = true)
    (hdup : ∀ u ∈ db.users, u.email ≠ normEmail (inp.email.getD "")) :
    ∃ v, (postUser hash db inp).2 = .ok (some v) ∧
      getUserById (postUser hash db inp).1 v.uid = .ok v ∧
      v.password = none ∧
      v.firstName = trimStr (inp.firstName.getD "") ∧
      v.lastName = trimStr (inp.lastName.getD "") ∧
      v.email = normEmail (inp.email.getD "") ∧
      v.phone = inp.phone.map trimStr ∧
      v.dateOfBirth = inp.dateOfBirth ∧
      v.isActive = inp.isActive.getD true ∧
      (postUser hash db inp).1.users.find? (fun x => x.uid == v.uid) =
        some (buildUser hash (genId db.nextId) inp) := by
  have hguard : db.users.any
      (fun u => u.email == (buildUser hash (genId db.nextId) inp).email) = false := by
    rw [List.any_eq_false]
    intro u hu
    simpa [buildUser] using hdup u hu
  have hpost : postUser hash db inp =
      (insertUser db (buildUser hash (genId db.nextId) inp),
       .ok (findUserViewById (insertUser db (buildUser hash (genId db.nextId) inp))
         (buildUser hash (genId db.nextId) inp).uid)) := by
    simp [postUser, hval, hguard]
  have hnone : db.users.find?
      (fun x => x.uid == (buildUser hash (genId db.nextId) inp).uid) = none := by
    rw [List.find?_eq_none]
    intro u hu
    simpa [buildUser] using hfresh u hu
  have hfind : (insertUser db (buildUser hash (genId db.nextId) inp)).users.find?
      (fun x => x.uid == (buildUser hash (genId db.nextId) inp).uid) =
      some (buildUser hash (genId db.nextId) inp) := by
    show (db.users ++ [buildUser hash (genId db.nextId) inp]).find? _ = _
    rw [List.find?_append, hnone, Option.none_or]
    simp [List.find?]
  have hview : findUserViewById (insertUser db (buildUser hash (genId db.nextId) inp))
      (buildUser hash (genId db.nextId) inp).uid =
      some (selectNoPassword (toUserView
        (insertUser db (buildUser hash (genId db.nextId) inp))
        (buildUser hash (genId db.nextId) inp))) := by
    simp [findUserViewById, hfind]
  refine ⟨selectNoPassword (toUserView
    (insertUser db (buildUser hash (genId db.nextId) inp))
    (buildUser hash (genId db.nextId) inp)),
    ?_, ?_, rfl, rfl, rfl, rfl, rfl, rfl, rfl, ?_⟩
  · rw [hpost, hview]
  · rw [hpost]
    simp [getUserById, hview, selectNoPassword, toUserView]
  · rw [hpost]
    exact hfind

/-- C2 witness: a concrete create on the one-role store, with mixed-case,
untrimmed email. -/
theorem create_then_find_matches_witness :
    ∃ v, (postUser bcryptLike dbOneRole
        ⟨some " John ", some "Doe", some " JOHN@X.COM ", some "secret1",
         some " 555 ", some "1990-01-01", some "000000000000000000000000",
         none⟩).2 = .ok (some v) ∧
      v.password = none ∧ v.email = "john@x.com" ∧ v.firstName = "John" := by
  obtain ⟨v, h1, _, h3, hfn, _, hemail, _⟩ :=
    create_then_find_matches bcryptLike dbOneRole
      ⟨some " John ", some "Doe", some " JOHN@X.COM ", some "secret1",
       some " 555 ", some "1990-01-01", some "000000000000000000000000", none⟩
      (by decide) (by decide) (by decide)
  refine ⟨v, h1, h3, ?_, ?_⟩
  · rw [hemail]; decide
  · rw [hfn]; decide

/-- C3: after a successful create, a second create supplying an email equal
case-insensitively (after trimming) to the first account's, or a role name
equal (after trimming) to an existing role's, fails with the translated
duplicate-key message naming the offending field — never the raw store
E11000 error — and the first entity remains retrievable unchanged. -/
theorem duplicate_create_translated (hash : String → String)
    (db dbr db1 db1r : DB) (inp1 inp2 : UserInput) (rinp1 rinp2 : RoleInput)
    (v1 : UserView) (role1 : RoleDoc)
    (hok : postUser hash db inp1 = (db1, .ok (some v1)))
    (hval2 : userCreateValid inp2 = true)
    (hemail : normEmail (inp2.email.getD "") = normEmail (inp1.email.getD ""))
    (hokr : postRole dbr rinp1 = (db1r, .ok role1))
    (hvalr2 : roleCreateValid rinp2 = true)
    (hname : trimStr (rinp2.name.getD "") = role1.name)
    (hfreshr : ∀ r ∈ dbr.roles, r.rid ≠ genId dbr.nextId) :
    postUser hash db1 inp2 = (db1, .error ⟨400, "Email already exists"⟩) ∧
    "Email already exists" ≠ e11000UserMsg ∧
    getUserById db1 v1.uid = .ok v1 ∧
    postRole db1r rinp2 = (db1r, .error ⟨400, "Role name already exists"⟩) ∧
    "Role name already exists" ≠ e11000RoleMsg ∧
    getRoleById db1r role1.rid = .ok role1 := by
  by_cases hval1 : userCreateValid inp1 = true
  swap
  · simp [postUser, hval1] at hok
  by_cases hdup1 : db.users.any
      (fun u => u.email == (buildUser hash (genId db.nextId) inp1).email) = true
  · simp [postUser, hval1, hdup1] at hok
  rw [Bool.not_eq_true] at hdup1
  have hok' : (insertUser db (buildUser hash (genId db.nextId) inp1),
      (.ok (findUserViewById (insertUser db (buildUser hash (genId db.nextId) inp1))
        (buildUser hash (genId db.nextId) inp1).uid) :
        Except ErrResponse (Option UserView))) = (db1, .ok (some v1)) := by
    rw [← hok]
    simp [postUser, hval1, hdup1]
  have hdb1 : insertUser db (buildUser hash (genId db.nextId) inp1) = db1 :=
    congrArg Prod.fst hok'
  have hv1 : findUserViewById (insertUser db (buildUser hash (genId db.nextId) inp1))
      (buildUser hash (genId db.nextId) inp1).uid = some v1 := by
    have := congrArg Prod.snd hok'
    simpa using this
  by_cases hvalr1 : roleCreateValid rinp1 = true
  swap
  · simp [postRole, hvalr1] at hokr
  by_cases hdupr1 : dbr.roles.any
      (fun r => r.name == (buildRole (genId dbr.nextId) rinp1).name) = true
  · simp [postRole, hvalr1, hdupr1] at hokr
  rw [Bool.not_eq_true] at hdupr1
  have hokr' : (insertRole dbr (buildRole (genId dbr.nextId) rinp1),
      (.ok (buildRole (genId dbr.nextId) rinp1) : Except ErrResponse RoleDoc)) =
      (db1r, .ok role1) := by
    rw [← hokr]
    simp [postRole, hvalr1, hdupr1]
  have hdb1r : insertRole dbr (buildRole (genId dbr.nextId) rinp1) = db1r :=
    congrArg Prod.fst hokr'
  have hrole1 : buildRole (genId dbr.nextId) rinp1 = role1 := by
    have := congrArg Prod.snd hokr'
    simpa using this
  obtain ⟨u0, hfind0, hg0⟩ := Option.map_eq_some'.1 hv1
  have hu0uid : u0.uid = (buildUser hash (genId db.nextId) inp1).uid := by
    have hbeq := List.find?_some hfind0
    exact eq_of_beq (by simpa using hbeq)
  have hv1uid : v1.uid = (buildUser hash (genId db.nextId) inp1).uid := by
    rw [← hg0, ← hu0uid]; rfl
  have hmem1 : buildUser hash (genId db.nextId) inp1 ∈ db1.users := by
    rw [← hdb1]
    exact List.mem_append_right _ (List.mem_singleton.2 rfl)
  have hguard2 : db1.users.any
      (fun u => u.email == (buildUser hash (genId db1.nextId) inp2).email) = true := by
    rw [List.any_eq_true]
    refine ⟨buildUser hash (genId db.nextId) inp1, hmem1, ?_⟩
    have : (buildUser hash (genId db1.nextId) inp2).email =
        (buildUser hash (genId db.nextId) inp1).email := by
      show normEmail (inp2.email.getD "") = normEmail (inp1.email.getD "")
      exact hemail
    rw [this]
    exact beq_self_eq_true _
  have hmemr1 : role1 ∈ db1r.roles := by
    rw [← hdb1r, ← hrole1]
    exact List.mem_append_right _ (List.mem_singleton.2 rfl)
  have hguardr2 : db1r.roles.any
      (fun r => r.name == (buildRole (genId db1r.nextId) rinp2).name) = true := by
    rw [List.any_eq_true]
    refine ⟨role1, hmemr1, ?_⟩
    have : (buildRole (genId db1r.nextId) rinp2).name = role1.name := by
      show trimStr (rinp2.name.getD "") = role1.name
      exact hname
    rw [this]
    exact beq_self_eq_true _
  refine ⟨?_, by decide, ?_, ?_, by decide, ?_⟩
  · simp [postUser, hval2, hguard2]
  · have : findUserViewById db1 v1.uid = some v1 := by
      rw [hv1uid, ← hdb1]
      exact hv1
    simp [getUserById, this]
  · simp [postRole, hvalr2, hguardr2]
  · have hfr : db1r.roles.find? (fun r => r.rid == role1.rid) = some role1 := by
      rw [← hdb1r]
      show (dbr.roles ++ [buildRole (genId dbr.nextId) rinp1]).find? _ = _
      have hn : dbr.roles.find? (fun r => r.rid == role1.rid) = none := by
        rw [List.find?_eq_none]
        intro r hr
        have := hfreshr r hr
        simp only [← hrole1, buildRole]
        simpa using this
      rw [List.find?_append, hn, Option.none_or]
      simp [List.find?, hrole1]
    simp [getRoleById, hfr]

/-- C3 witness: the concrete duplicate-email and duplicate-name scenarios on
the empty store (` ADMIN ` trims to the stored `admin`; the second email
differs from the first only in case). -/
theorem duplicate_create_translated_witness :
    postUser bcryptLike
      (insertUser dbEmpty (buildUser bcryptLike (genId 0)
        ⟨some "John", some "Doe", some "JOHN@X.COM", some "secret1", none, none,
         some "507f1f77bcf86cd799439011", none⟩))
      ⟨some "Jane", some "Doe", some "john@x.com", some "secret2", none, none,
       some "507f1f77bcf86cd799439011", none⟩ =
      (insertUser dbEmpty (buildUser bcryptLike (genId 0)
        ⟨some "John", some "Doe", some "JOHN@X.COM", some "secret1", none, none,
         some "507f1f77bcf86cd799439011", none⟩),
       .error ⟨400, "Email already exists"⟩) ∧
    postRole (insertRole dbEmpty (buildRole (genId 0) ⟨some "admin", some "d", none, none⟩))
      ⟨some " admin ", some "e", none, none⟩ =
      (insertRole dbEmpty (buildRole (genId 0) ⟨some "admin", some "d", none, none⟩),
       .error ⟨400, "Role name already exists"⟩) := by
  have h := duplicate_create_translated bcryptLike dbEmpty dbEmpty
    (insertUser dbEmpty (buildUser bcryptLike (genId 0)
      ⟨some "John", some "Doe", some "JOHN@X.COM", some "secret1", none, none,
       some "507f1f77bcf86cd799439011", none⟩))
    (insertRole dbEmpty (buildRole (genId 0) ⟨some "admin", some "d", none, none⟩))
    ⟨some "John", some "Doe", some "JOHN@X.COM", some "secret1", none, none,
     some "507f1f77bcf86cd799439011", none⟩
    ⟨some "Jane", some "Doe", some "john@x.com", some "secret2", none, none,
     some "507f1f77bcf86cd799439011", none⟩
    ⟨some "admin", some "d", none, none⟩
    ⟨some " admin ", some "e", none, none⟩
    ⟨genId 0, "John", "Doe", "john@x.com", none, none, none, none, true⟩
    (buildRole (genId 0) ⟨some "admin", some "d", none, none⟩)
    (by decide) (by decide) (by decide) (by decide) (by decide) (by decide)
    (by decide)
  exact ⟨h.1, h.2.2.2.1⟩



/-- An appended rendering is rendered. -/
theorem isRendered_append (pre : String) (h : pre ∈ renderShapes)
    (rest : String) : isRendered ⟨pre ++ rest⟩ :=
  ⟨pre, h, rest, rfl⟩

/-- An exact-shape rendering is rendered. -/
theorem isRendered_exact (s : String) (h : s ∈ renderShapes) : isRendered ⟨s⟩ :=
  ⟨s, h, "", (String.append_empty s).symm⟩

/-- C9: every call to the gateway — any of the nine operations, on any
store, whatever the repository or resolver outcome — returns a structured
envelope carrying one of the gateway's human-readable renderings: successes
as a summary-plus-payload text, every repository/resolver error re-rendered
behind the operation's error shape; the dispatcher is a total function, so
no exception crosses the boundary. -/
theorem gateway_total_rendering (hash : String → String) (db : DB)
    (call : ToolCall) : isRendered (callTool hash db call).2 := by
  cases call <;>
    simp only [callTool, mcpCreateUser, mcpGetUsers, mcpUpdateUser,
      mcpDeleteUser, mcpCreateRole, mcpGetRoles, mcpUpdateRole,
      mcpDeleteRole, mcpSeedDatabase] <;>
    (repeat' split) <;>
    first
      | exact isRendered_append _ (by decide) _
      | exact isRendered_exact _ (by decide)

/-- Updating the first `p`-match keeps it the first `p`-match when its image
still satisfies `p`. -/
theorem find?_updateFirst_self (p : α → Bool) (f : α → α) (l : List α) (x : α)
    (h : l.find? p = some x) (hf : p (f x) = true) :
    (updateFirst p f l).find? p = some (f x) := by
  induction l with
  | nil => cases h
  | cons y ys ih =>
    by_cases hy : p y = true
    · rw [List.find?_cons_of_pos ys hy] at h
      injection h with h
      subst h
      have hu : updateFirst p f (y :: ys) = f y :: ys := by
        simp [updateFirst, hy]
      rw [hu, List.find?_cons_of_pos ys hf]
    · rw [Bool.not_eq_true] at hy
      rw [List.find?_cons_of_neg ys (by simp [hy])] at h
      have hu : updateFirst p f (y :: ys) = y :: updateFirst p f ys := by
        simp [updateFirst, hy]
      rw [hu, List.find?_cons_of_neg _ (by simp [hy]), ih h]

/-- Updating the first `p`-match by a function that fixes it changes
nothing. -/
theorem updateFirst_eq_self (p : α → Bool) (f : α → α) (l : List α) (x : α)
    (h : l.find? p = some x) (hfx : f x = x) : updateFirst p f l = l := by
  induction l with
  | nil => cases h
  | cons y ys ih =>
    by_cases hy : p y = true
    · rw [List.find?_cons_of_pos ys hy] at h
      injection h with h
      subst h
      simp [updateFirst, hy, hfx]
    · rw [Bool.not_eq_true] at hy
      rw [List.find?_cons_of_neg ys (by simp [hy])] at h
      simp [updateFirst, hy, ih h]

/-- Updating the first `p`-match is invisible to a `q`-search when `p` and
`q` are disjoint and images never satisfy `q`. -/
theorem find?_updateFirst_ne (p q : α → Bool) (f : α → α) (l : List α)
    (h1 : ∀ x, p x = true → q x = false) (h2 : ∀ x, q (f x) = false) :
    (updateFirst p f l).find? q = l.find? q := by
  induction l with
  | nil => rfl
  | cons y ys ih =>
    by_cases hy : p y = true
    · have hu : updateFirst p f (y :: ys) = f y :: ys := by
        simp [updateFirst, hy]
      rw [hu, List.find?_cons_of_neg ys (by simp [h2 y]),
        List.find?_cons_of_neg ys (by simp [h1 y hy])]
    · rw [Bool.not_eq_true] at hy
      have hu : updateFirst p f (y :: ys) = y :: updateFirst p f ys := by
        simp [updateFirst, hy]
      by_cases hqy : q y = true
      · rw [hu, List.find?_cons_of_pos _ hqy, List.find?_cons_of_pos ys hqy]
      · rw [Bool.not_eq_true] at hqy
        rw [hu, List.find?_cons_of_neg _ (by simp [hqy]),
          List.find?_cons_of_neg ys (by simp [hqy]), ih]

/-- Appending a non-`q` element is invisible to a `q`-search. -/
theorem find?_append_ne (q : α → Bool) (l : List α) (a : α)
    (h : q a = false) : (l ++ [a]).find? q = l.find? q := by
  rw [List.find?_append]
  simp [List.find?, h]

/-- Appending a `q`-element to a list with no `q`-match makes it the
`q`-match. -/
theorem find?_append_self (q : α → Bool) (l : List α) (a : α)
    (hn : l.find? q = none) (h : q a = true) : (l ++ [a]).find? q = some a := by
  rw [List.find?_append, hn, Option.none_or]
  simp [List.find?, h]

/-- What one upsert of the seed route guarantees on the roles collection:
users untouched; afterwards the returned document is the first filter match;
it is the update of the found document, or the freshly inserted one; other
searches are unaffected; and an upsert that finds a document its update
fixes is the identity. -/
theorem roleUpsert_spec (db : DB) (p : RoleDoc → Bool) (f : RoleDoc → RoleDoc)
    (mk : String → RoleDoc) (hf : ∀ r, p (f r) = true)
    (hmk : ∀ s, p (mk s) = true) :
    (roleUpsert db p f mk).1.users = db.users ∧
    (roleUpsert db p f mk).1.roles.find? p = some (roleUpsert db p f mk).2 ∧
    (∀ r, db.roles.find? p = some r → (roleUpsert db p f mk).2 = f r) ∧
    (db.roles.find? p = none →
      (roleUpsert db p f mk).2 = mk (genId db.nextId)) ∧
    (∀ q : RoleDoc → Bool, (∀ x, p x = true → q x = false) →
      (∀ x, q (f x) = false) → (∀ s, q (mk s) = false) →
      (roleUpsert db p f mk).1.roles.find? q = db.roles.find? q) ∧
    (∀ r, db.roles.find? p = some r → f r = r →
      roleUpsert db p f mk = (db, r)) := by
  cases hfind : db.roles.find? p with
  | some r =>
    have hru : roleUpsert db p f mk =
        ({ db with roles := updateFirst p f db.roles }, f r) := by
      simp only [roleUpsert, hfind]
    refine ⟨by rw [hru], ?_, ?_, ?_, ?_, ?_⟩
    · rw [hru]
      exact find?_updateFirst_self p f db.roles r hfind (hf r)
    · intro r2 h2
      injection h2 with h2
      rw [hru, h2]
    · intro h2
      cases h2
    · intro q h1 h2 _
      rw [hru]
      exact find?_updateFirst_ne p q f db.roles h1 h2
    · intro r2 h2 hfx
      injection h2 with h2
      subst h2
      rw [hru, updateFirst_eq_self p f db.roles r hfind hfx, hfx]
  | none =>
    have hru : roleUpsert db p f mk =
        (insertRole db (mk (genId db.nextId)), mk (genId db.nextId)) := by
      simp only [roleUpsert, hfind]
    refine ⟨by rw [hru]; rfl, ?_, ?_, fun _ => by rw [hru], ?_, ?_⟩
    · rw [hru]
      exact find?_append_self p db.roles _ hfind (hmk _)
    · intro r2 h2
      cases h2
    · intro q _ _ h3
      rw [hru]
      exact find?_append_ne q db.roles _ (h3 _)
    · intro r2 h2
      cases h2

/-- The users-collection counterpart of `roleUpsert_spec`. -/
theorem userUpsert_spec (db : DB) (p : UserDoc → Bool) (f : UserDoc → UserDoc)
    (mk : String → UserDoc) (hf : ∀ u, p (f u) = true)
    (hmk : ∀ s, p (mk s) = true) :
    (userUpsert db p f mk).1.roles = db.roles ∧
    (userUpsert db p f mk).1.users.find? p = some (userUpsert db p f mk).2 ∧
    (∀ u, db.users.find? p = some u → (userUpsert db p f mk).2 = f u) ∧
    (db.users.find? p = none →
      (userUpsert db p f mk).2 = mk (genId db.nextId)) ∧
    (∀ u, db.users.find? p = some u → f u = u →
      userUpsert db p f mk = (db, u)) := by
  cases hfind : db.users.find? p with
  | some u =>
    have hru : userUpsert db p f mk =
        ({ db with users := updateFirst p f db.users }, f u) := by
      simp only [userUpsert, hfind]
    refine ⟨by rw [hru], ?_, ?_, ?_, ?_⟩
    · rw [hru]
      exact find?_updateFirst_self p f db.users u hfind (hf u)
    · intro u2 h2
      injection h2 with h2
      rw [hru, h2]
    · intro h2
      cases h2
    · intro u2 h2 hfx
      injection h2 with h2
      subst h2
      rw [hru, updateFirst_eq_self p f db.users u hfind hfx, hfx]
  | none =>
    have hru : userUpsert db p f mk =
        (insertUser db (mk (genId db.nextId)), mk (genId db.nextId)) := by
      simp only [userUpsert, hfind]
    refine ⟨by rw [hru]; rfl, ?_, ?_, fun _ => by rw [hru], ?_⟩
    · rw [hru]
      exact find?_append_self p db.users _ hfind (hmk _)
    · intro u2 h2
      cases h2
    · intro u2 h2
      cases h2

/-- What one seed invocation guarantees, on any prior store: each upserted
document is afterwards the first match of its natural key, the canonical
field-set fixes each of them, and each is the canonical update of the found
document (or a canonical fresh document when the key matched nothing). -/
theorem seed_spec (db : DB) :
    (postSeed db).1.roles.find? (fun r => r.name == "admin") =
      some (seedStepA db).2 ∧
    (postSeed db).1.roles.find? (fun r => r.name == "user") =
      some (seedStepB db).2 ∧
    (postSeed db).1.users.find? (fun u => u.email == "admin@example.com") =
      some (seedStepC db).2 ∧
    seedAdminRoleSet (seedStepA db).2 = (seedStepA db).2 ∧
    seedUserRoleSet (seedStepB db).2 = (seedStepB db).2 ∧
    seedAdminUserSet (seedStepA db).2.rid (seedStepC db).2 = (seedStepC db).2 ∧
    (∀ r, db.roles.find? (fun x => x.name == "admin") = some r →
      (seedStepA db).2 = seedAdminRoleSet r) ∧
    (∀ r, db.roles.find? (fun x => x.name == "user") = some r →
      (seedStepB db).2 = seedUserRoleSet r) ∧
    (∀ u, db.users.find? (fun x => x.email == "admin@example.com") = some u →
      (seedStepC db).2 = seedAdminUserSet (seedStepA db).2.rid u) ∧
    (db.users.find? (fun x => x.email == "admin@example.com") = none →
      ∃ uid, (seedStepC db).2 = mkSeedAdminUser (seedStepA db).2.rid uid) := by
  obtain ⟨hA1, hA2, hA3, hA4, hA5, hA6⟩ :=
    roleUpsert_spec db (fun r => r.name == "admin") seedAdminRoleSet
      mkSeedAdminRole (fun r => rfl) (fun s => rfl)
  obtain ⟨hB1, hB2, hB3, hB4, hB5, hB6⟩ :=
    roleUpsert_spec (seedStepA db).1 (fun r => r.name == "user") seedUserRoleSet
      mkSeedUserRole (fun r => rfl) (fun s => rfl)
  obtain ⟨hC1, hC2, hC3, hC4, hC5⟩ :=
    userUpsert_spec (seedStepB db).1 (fun u => u.email == "admin@example.com")
      (seedAdminUserSet (seedStepA db).2.rid)
      (mkSeedAdminUser (seedStepA db).2.rid) (fun u => rfl) (fun s => rfl)
  have hfoldA : roleUpsert db (fun r => r.name == "admin") seedAdminRoleSet
      mkSeedAdminRole = seedStepA db := rfl
  have hfoldB : roleUpsert (seedStepA db).1 (fun r => r.name == "user")
      seedUserRoleSet mkSeedUserRole = seedStepB db := rfl
  have hfoldC : userUpsert (seedStepB db).1
      (fun u => u.email == "admin@example.com")
      (seedAdminUserSet (seedStepA db).2.rid)
      (mkSeedAdminUser (seedStepA db).2.rid) = seedStepC db := rfl
  rw [hfoldA] at hA1 hA2 hA3 hA4 hA5
  rw [hfoldB] at hB1 hB2 hB3 hB4 hB5
  rw [hfoldC] at hC1 hC2 hC3 hC4
  have hAfix : seedAdminRoleSet (seedStepA db).2 = (seedStepA db).2 := by
    cases hf : db.roles.find? (fun x => x.name == "admin") with
    | some r =>
      rw [show (seedStepA db).2 = seedAdminRoleSet r from hA3 r hf]
      rfl
    | none =>
      rw [show (seedStepA db).2 = mkSeedAdminRole (genId db.nextId) from hA4 hf]
      rfl
  have hBfix : seedUserRoleSet (seedStepB db).2 = (seedStepB db).2 := by
    cases hf : (seedStepA db).1.roles.find? (fun x => x.name == "user") with
    | some r =>
      rw [show (seedStepB db).2 = seedUserRoleSet r from hB3 r hf]
      rfl
    | none =>
      rw [show (seedStepB db).2 = mkSeedUserRole (genId (seedStepA db).1.nextId) from hB4 hf]
      rfl
  have hCfix : seedAdminUserSet (seedStepA db).2.rid (seedStepC db).2 =
      (seedStepC db).2 := by
    cases hf : (seedStepB db).1.users.find?
        (fun x => x.email == "admin@example.com") with
    | some u =>
      rw [show (seedStepC db).2 = seedAdminUserSet (seedStepA db).2.rid u from hC3 u hf]
      rfl
    | none =>
      rw [show (seedStepC db).2 =
        mkSeedAdminUser (seedStepA db).2.rid (genId (seedStepB db).1.nextId) from hC4 hf]
      rfl
  have hCusers : (postSeed db).1.users.find?
      (fun u => u.email == "admin@example.com") = some (seedStepC db).2 := hC2
  have hBviaA : (seedStepA db).1.roles.find? (fun x => x.name == "user") =
      db.roles.find? (fun x => x.name == "user") := by
    refine hA5 _ ?_ ?_ ?_
    · intro x hx
      rw [eq_of_beq hx]
      rfl
    · intro x
      rfl
    · intro s
      rfl
  have hAviaB : (seedStepB db).1.roles.find? (fun x => x.name == "admin") =
      (seedStepA db).1.roles.find? (fun x => x.name == "admin") := by
    refine hB5 _ ?_ ?_ ?_
    · intro x hx
      rw [eq_of_beq hx]
      rfl
    · intro x
      rfl
    · intro s
      rfl
  have hroles1 : (postSeed db).1.roles = (seedStepB db).1.roles := hC1
  have husersAB : (seedStepB db).1.users = db.users := by
    rw [hB1, hA1]
  refine ⟨?_, ?_, hCusers, hAfix, hBfix, hCfix, hA3, ?_, ?_, ?_⟩
  · show (seedStepC db).1.roles.find? _ = _
    rw [hC1, hAviaB]
    exact hA2
  · show (seedStepC db).1.roles.find? _ = _
    rw [hC1]
    exact hB2
  · intro r hr
    exact hB3 r (by rw [hBviaA]; exact hr)
  · intro u hu
    exact hC3 u (by rw [husersAB]; exact hu)
  · intro hu
    exact ⟨_, hC4 (by rw [husersAB]; exact hu)⟩


/-- C5 counterexample: the account upsert of seed does not overwrite every
non-key field with the canonical defaults — on a store whose admin account
has a `dateOfBirth`, the seeded account still carries it, where the
canonical default is the absent value. -/
theorem seed_overwrite_counterexample :
    (postSeed dbDob).2.users.map (fun u => u.dateOfBirth) = [some "1990-01-01"] ∧
    (postSeed dbDob).1.users.map (fun u => u.dateOfBirth) = [some "1990-01-01"] ∧
    some "1990-01-01" ≠ (none : Option String) := by
  decide

/-- C5 (amended): seed is idempotent — a second invocation returns the very
same response (in particular the same two role ids and one account id) and
leaves the store untouched — and each upsert is find-by-natural-key,
creating the canonical document when the key matches nothing and otherwise
overwriting the canonical non-key payload (for the account: name fields,
email, secret, phone, role, active flag — the optional `dateOfBirth` is not
part of the payload and is left as stored). -/
theorem seed_idempotent_upserts (db : DB) :
    postSeed (postSeed db).1 = postSeed db ∧
    (∀ r, db.roles.find? (fun x => x.name == "admin") = some r →
      (postSeed db).2.roles.head? = some (seedAdminRoleSet r)) ∧
    (∀ u, db.users.find? (fun x => x.email == "admin@example.com") = some u →
      (postSeed db).2.users = [seedAdminUserSet (seedStepA db).2.rid u]) ∧
    (db.users.find? (fun x => x.email == "admin@example.com") = none →
      ∃ uid, (postSeed db).2.users = [mkSeedAdminUser (seedStepA db).2.rid uid]) := by
  obtain ⟨h1, h2, h3, h4, h5, h6, h7, h8, h9, h10⟩ := seed_spec db
  refine ⟨?_, ?_, ?_, ?_⟩
  · obtain ⟨_, _, _, _, _, kA6⟩ :=
      roleUpsert_spec (postSeed db).1 (fun r => r.name == "admin")
        seedAdminRoleSet mkSeedAdminRole (fun r => rfl) (fun s => rfl)
    have e1 : seedStepA (postSeed db).1 = ((postSeed db).1, (seedStepA db).2) :=
      kA6 _ h1 h4
    obtain ⟨_, _, _, _, _, kB6⟩ :=
      roleUpsert_spec (postSeed db).1 (fun r => r.name == "user")
        seedUserRoleSet mkSeedUserRole (fun r => rfl) (fun s => rfl)
    have e2 : seedStepB (postSeed db).1 = ((postSeed db).1, (seedStepB db).2) := by
      show roleUpsert (seedStepA (postSeed db).1).1 (fun r => r.name == "user")
        seedUserRoleSet mkSeedUserRole = _
      rw [e1]
      exact kB6 _ h2 h5
    obtain ⟨_, _, _, _, kC5⟩ :=
      userUpsert_spec (postSeed db).1 (fun u => u.email == "admin@example.com")
        (seedAdminUserSet (seedStepA db).2.rid)
        (mkSeedAdminUser (seedStepA db).2.rid) (fun u => rfl) (fun s => rfl)
    have e3 : seedStepC (postSeed db).1 = ((postSeed db).1, (seedStepC db).2) := by
      show userUpsert (seedStepB (postSeed db).1).1
        (fun u => u.email == "admin@example.com")
        (seedAdminUserSet (seedStepA (postSeed db).1).2.rid)
        (mkSeedAdminUser (seedStepA (postSeed db).1).2.rid) = _
      rw [e1, e2]
      exact kC5 _ h3 h6
    show ((seedStepC (postSeed db).1).1,
      ⟨"Seed data created successfully",
       [(seedStepA (postSeed db).1).2, (seedStepB (postSeed db).1).2],
       [(seedStepC (postSeed db).1).2]⟩) = postSeed db
    rw [e1, e2, e3]
    rfl
  · intro r hr
    show some (seedStepA db).2 = _
    rw [h7 r hr]
  · intro u hu
    show [(seedStepC db).2] = _
    rw [h9 u hu]
  · intro hu
    obtain ⟨uid, he⟩ := h10 hu
    exact ⟨uid, by show [(seedStepC db).2] = _; rw [he]⟩

/-- C5 witness: the amended statement evaluated on the store of the
counterexample (the account exists, so the found-key branch applies) and on
the empty store (the create branch). -/
theorem seed_idempotent_upserts_witness :
    postSeed (postSeed dbDob).1 = postSeed dbDob ∧
    (postSeed dbDob).2.users =
      [seedAdminUserSet (seedStepA dbDob).2.rid
        ⟨"u1", "X", "Y", "admin@example.com", "p", none, some "1990-01-01",
         "r", true⟩] ∧
    postSeed (postSeed dbEmpty).1 = postSeed dbEmpty := by
  have h := seed_idempotent_upserts dbDob
  have h2 := seed_idempotent_upserts dbEmpty
  exact ⟨h.1, h.2.2.1 _ (by decide), h2.1⟩

end MongoCrud
